import Mathlib

/-!
Shallow embedding of the 9layer batch analysis orchestrator
(`src/analysis/pipeline.py`) and its persistence layer
(`src/analysis/storage.py`).

The database is modelled as an explicit state value holding the three
tables the analysis layer touches (`tracks`, `track_audio_analysis`,
`track_analysis_failures`).  SQL statements are translated row by row:
a `WHERE` clause becomes a `filter`, `ORDER BY` becomes an insertion
sort by the ordering column, `LIMIT` becomes `take`, and an
`UPDATE ... WHERE` becomes a `map` that rewrites matching rows.
`CURRENT_TIMESTAMP` is the state's `now` field.

The descriptor columns of `track_audio_analysis` (tempo, moods, ...,
floats, lists and JSON maps from `metadata.TrackAnalysisResult`) are
never inspected by any orchestration logic; they are carried as one
opaque `descriptors` field that the upsert replaces wholesale, exactly
as the `ON CONFLICT ... DO UPDATE SET` statement replaces every
descriptor column with its `EXCLUDED` value.
-/

namespace NineLayer

/-- `storage.TrackForAnalysis`: a track that requires analysis. -/
structure TrackForAnalysis where
  track_id : String
  file_path : String
deriving DecidableEq, Repr

/-- A row of the `tracks` table, restricted to the columns the analysis
layer reads (`id`, `"filePath"`, `"updatedAt"`).  Timestamps are
modelled as naturals. -/
structure TrackRow where
  id : String
  filePath : Option String
  updatedAt : Nat
deriving DecidableEq, Repr

/-- A row of `track_audio_analysis`.  `descriptors` stands for the whole
block of descriptor columns (see the module header). -/
structure AnalysisRow where
  trackId : String
  analysisVersion : String
  analyzedAt : Nat
  descriptors : List (String × String)
deriving DecidableEq, Repr

/-- A row of `track_analysis_failures`. -/
structure FailureRow where
  trackId : String
  filePath : Option String
  error : String
  retryCount : Nat
  occurredAt : Nat
  resolved : Bool
deriving DecidableEq, Repr

/-- The database state seen by `AnalysisStorage`.  `now` is the value
`CURRENT_TIMESTAMP` yields for writes issued against this state. -/
structure DBState where
  tracks : List TrackRow
  analyses : List AnalysisRow
  failures : List FailureRow
  now : Nat
deriving DecidableEq, Repr

/-- `metadata.TrackAnalysisResult`, with the descriptor fields
aggregated into `descriptors` (see the module header).
`to_storage_payload`/`from_storage_payload` round-tripping is the
identity on this abstraction, so the payload dictionary is not
modelled separately. -/
structure TrackAnalysisResult where
  track_id : String
  analysis_version : String
  descriptors : List (String × String)
deriving DecidableEq, Repr

/-- SQL `"filePath" IS NOT NULL AND "filePath" <> ''`; this also matches
Python truthiness of the fetched column (`if row[1]`). -/
def pathNonEmpty : Option String → Bool
  | none => false
  | some s => !(s == "")

/-- The `LEFT JOIN track_audio_analysis aa ON aa."trackId" = t.id` hit
for a track.  Modelled from the spec: `track_audio_analysis."trackId"`
is unique (§3 "at most one current record per item"; the DDL itself is
not in the repository snapshot, but `save_analysis` relies on the
constraint via `ON CONFLICT ("trackId")`), so the join produces at most
one analysis row per track. -/
def lookupAnalysis (st : DBState) (tid : String) : Option AnalysisRow :=
  st.analyses.find? (fun a => a.trackId == tid)

/-- The `WHERE` clause of `fetch_tracks_for_analysis`. -/
def pendingWhere (st : DBState) (version : String) (force : Bool)
    (t : TrackRow) : Bool :=
  pathNonEmpty t.filePath &&
    (force ||
      (match lookupAnalysis st t.id with
       | none => true
       | some aa => aa.analysisVersion != version))

/-- `ORDER BY t."updatedAt" DESC`. -/
def updatedAtDesc (a b : TrackRow) : Prop := b.updatedAt ≤ a.updatedAt

instance : DecidableRel updatedAtDesc := fun a b =>
  Nat.decLe b.updatedAt a.updatedAt

instance : IsTotal TrackRow updatedAtDesc :=
  ⟨fun a b => (Nat.le_total a.updatedAt b.updatedAt).symm⟩

instance : IsTrans TrackRow updatedAtDesc :=
  ⟨fun _ _ _ hab hbc => Nat.le_trans hbc hab⟩

/-- The rows returned by the SQL query in
`AnalysisStorage.fetch_tracks_for_analysis` (`cur.fetchall()`):
`WHERE` filter, `ORDER BY "updatedAt" DESC`, `LIMIT`. -/
def analysisQueryRows (st : DBState) (version : String) (limit : Nat)
    (force : Bool) : List TrackRow :=
  (List.insertionSort updatedAtDesc
    (st.tracks.filter (pendingWhere st version force))).take limit

/-- `AnalysisStorage.fetch_tracks_for_analysis`.  The Python list
comprehension keeps only rows with a truthy path (`if row[1]`). -/
def fetch_tracks_for_analysis (st : DBState) (required_version : String)
    (limit : Nat) (force_reanalyze : Bool) : List TrackForAnalysis :=
  ((analysisQueryRows st required_version limit force_reanalyze).filter
      (fun t => pathNonEmpty t.filePath)).map
    (fun t => ⟨t.id, t.filePath.getD ""⟩)

/-- The `INSERT ... ON CONFLICT ("trackId") DO UPDATE` statement of
`save_analysis`: insert a fresh row, or replace every descriptor column
(and the version and `analyzedAt`) of the existing row for the track.
The surrogate `id` column (a fresh uuid on insert, untouched on update)
is not modelled. -/
def upsertAnalysisRow (st : DBState) (r : TrackAnalysisResult) :
    List AnalysisRow :=
  if st.analyses.any (fun a => a.trackId == r.track_id) then
    st.analyses.map (fun a =>
      if a.trackId == r.track_id then
        { a with analysisVersion := r.analysis_version,
                 analyzedAt := st.now,
                 descriptors := r.descriptors }
      else a)
  else
    st.analyses ++
      [{ trackId := r.track_id, analysisVersion := r.analysis_version,
         analyzedAt := st.now, descriptors := r.descriptors }]

/-- The `SET` list of `resolve_failure`'s `UPDATE`. -/
def resolveUpdate (now : Nat) (f : FailureRow) : FailureRow :=
  { f with resolved := true, occurredAt := now }

/-- `AnalysisStorage.resolve_failure`: `UPDATE track_analysis_failures
SET resolved = TRUE, "occurredAt" = CURRENT_TIMESTAMP WHERE "trackId" =
%(track_id)s`. -/
def resolve_failure (st : DBState) (tid : String) : DBState :=
  { st with
    failures := st.failures.map (fun f =>
      if f.trackId == tid then resolveUpdate st.now f else f) }

/-- `AnalysisStorage.save_analysis`: the upsert above followed by the
`self.resolve_failure(result.track_id)` call at the end of the method. -/
def save_analysis (st : DBState) (r : TrackAnalysisResult) : DBState :=
  resolve_failure { st with analyses := upsertAnalysisRow st r } r.track_id

/-- The `SET` list of `record_failure`'s `UPDATE`:
`"filePath" = COALESCE(%(file_path)s, "filePath")`, overwrite the error,
bump the retry counter, refresh the timestamp, clear `resolved`. -/
def recordFailureUpdate (path : Option String) (err : String) (now : Nat)
    (f : FailureRow) : FailureRow :=
  { f with
    filePath := match path with
                | some p => some p
                | none => f.filePath
    error := err,
    retryCount := f.retryCount + 1,
    occurredAt := now,
    resolved := false }

/-- `AnalysisStorage.record_failure`: try the plain `INSERT`; when the
insert hits the unique constraint on `"trackId"` (`psycopg.IntegrityError`),
run the `UPDATE` path instead.  Modelled from the spec for the parts the
DDL would carry: `track_analysis_failures."trackId"` is unique (§3 "at
most one FailureEntry per item_id"), and a freshly inserted row gets the
column defaults `retryCount = 0`, `resolved = FALSE`,
`occurredAt = CURRENT_TIMESTAMP`. -/
def record_failure (st : DBState) (tid : String) (path : Option String)
    (err : String) : DBState :=
  if st.failures.any (fun f => f.trackId == tid) then
    { st with
      failures := st.failures.map (fun f =>
        if f.trackId == tid then recordFailureUpdate path err st.now f
        else f) }
  else
    { st with
      failures := st.failures ++
        [{ trackId := tid, filePath := path, error := err,
           retryCount := 0, occurredAt := st.now, resolved := false }] }

/-- `ORDER BY "occurredAt" ASC`. -/
def occurredAtAsc (a b : FailureRow) : Prop := a.occurredAt ≤ b.occurredAt

instance : DecidableRel occurredAtAsc := fun a b =>
  Nat.decLe a.occurredAt b.occurredAt

instance : IsTotal FailureRow occurredAtAsc :=
  ⟨fun a b => Nat.le_total a.occurredAt b.occurredAt⟩

instance : IsTrans FailureRow occurredAtAsc :=
  ⟨fun _ _ _ hab hbc => Nat.le_trans hab hbc⟩

/-- The rows returned by the SQL query of `list_failed_tracks`:
`WHERE resolved = FALSE ORDER BY "occurredAt" ASC LIMIT %(limit)s`. -/
def failedQueryRows (st : DBState) (limit : Nat) : List FailureRow :=
  (List.insertionSort occurredAtAsc
    (st.failures.filter (fun f => !f.resolved))).take limit

/-- `AnalysisStorage.list_failed_tracks`.  The comprehension keeps rows
with a truthy path (`if row[1]`) and reads `row[1] or ""`. -/
def list_failed_tracks (st : DBState) (limit : Nat) :
    List TrackForAnalysis :=
  ((failedQueryRows st limit).filter
      (fun f => pathNonEmpty f.filePath)).map
    (fun f => ⟨f.trackId, f.filePath.getD ""⟩)

/-- `AnalysisStorage.get_track_file_path`: `SELECT "filePath" FROM tracks
WHERE id = ...`, then `if row and row[0]`. -/
def get_track_file_path (st : DBState) (tid : String) : Option String :=
  match st.tracks.find? (fun t => t.id == tid) with
  | some t => if pathNonEmpty t.filePath then t.filePath else none
  | none => none

/-- First failure row for a track, used by the theorems to read the
ledger back. -/
def failureFor (st : DBState) (tid : String) : Option FailureRow :=
  st.failures.find? (fun f => f.trackId == tid)

/-! ### Pipeline (`src/analysis/pipeline.py`) -/

/-- `pipeline.PipelineConfig`. -/
structure PipelineConfig where
  enable_embeddings : Bool := true
deriving DecidableEq, Repr

/-- `config.AnalysisSettings`, restricted to the fields the pipeline
reads (the connection/CLI strings are opaque to the orchestration
logic). -/
structure AnalysisSettings where
  database_url : String
  analysis_version : String
  batch_size : Nat
  max_workers : Nat
  force_reanalyze : Bool
  model_dir : Option String
deriving DecidableEq, Repr

/-- `pipeline.BatchSummary`. -/
structure BatchSummary where
  requested : Nat := 0
  processed : Nat := 0
  saved : Nat := 0
  failed : Nat := 0
  skipped : Nat := 0
  errors : List (String × String) := []
deriving DecidableEq, Repr

/-- Outcome of one `EssentiaAdapter.analyze_file` call: a result, a
raised `FileNotFoundError` (with its message), or any other raised
exception (with its message). -/
inductive AnalyzeResult where
  | ok (result : TrackAnalysisResult)
  | fileNotFound (msg : String)
  | extractionError (msg : String)
deriving DecidableEq, Repr

/-- The external world a run executes against: host core count
(`os.cpu_count()`), filesystem (`Path.exists`), whether constructing an
`EssentiaAdapter` succeeds (and the `EssentiaNotAvailableError` message
when it does not), the behaviour of `analyze_file` per
(track id, path, version), and whether the database write of
`save_analysis` raises (with the raised message) per track id.  The
environment is fixed for the duration of a run. -/
structure Env where
  cpu_count : Option Nat
  fileExists : String → Bool
  engineOk : Bool
  engineErr : String
  extraction : String → String → String → AnalyzeResult
  persistFail : String → Option String

/-- `pipeline.EssentiaConfig` (from `essentia_adapter`), as built by the
pipeline: model directory and the embedding flag. -/
structure EssentiaConfig where
  model_dir : Option String
  enable_embeddings : Bool
deriving DecidableEq, Repr

/-- A constructed `EssentiaAdapter`, identified by the configuration it
was constructed with. -/
structure EssentiaAdapter where
  config : EssentiaConfig
deriving DecidableEq, Repr

/-- The `EssentiaConfig` that `_initialise_worker` (and
`_analyze_single`) builds from a `PipelineConfig` and a model
directory. -/
def mkEssentiaConfig (config : PipelineConfig) (model_dir : Option String) :
    EssentiaConfig :=
  ⟨model_dir, config.enable_embeddings⟩

/-- State of one worker process: the `_WORKER_ADAPTER` module global,
plus a count of how many times an `EssentiaAdapter` was successfully
constructed in this process (instrumentation for the construction
claims; the Python code has no such counter). -/
structure WorkerState where
  adapter : Option EssentiaAdapter
  constructions : Nat
deriving DecidableEq, Repr

/-- A fresh worker process: `_WORKER_ADAPTER = None`. -/
def initWorkerState : WorkerState := ⟨none, 0⟩

/-- `pipeline._initialise_worker`: return at once when the global is
already set; otherwise construct the adapter.  A construction failure
raises (the global stays `None`). -/
def initialise_worker (env : Env) (config : PipelineConfig)
    (model_dir : Option String) (ws : WorkerState) :
    Except String WorkerState :=
  match ws.adapter with
  | some _ => .ok ws
  | none =>
    if env.engineOk then
      .ok ⟨some ⟨mkEssentiaConfig config model_dir⟩, ws.constructions + 1⟩
    else
      .error env.engineErr

/-- The payload tuple `_process_tracks` submits to the pool for one
track. -/
structure WorkerPayload where
  track_id : String
  file_path : String
  analysis_version : String
  pipeline_config : PipelineConfig
  model_dir : Option String
deriving DecidableEq, Repr

/-- What `future.result()` yields for one submitted task: the storage
payload on success, a raised `FileNotFoundError`, or any other raised
exception. -/
inductive WorkerResult where
  | payload (r : TrackAnalysisResult)
  | fileNotFound (msg : String)
  | failure (msg : String)
deriving DecidableEq, Repr

/-- `pipeline._worker_analyse`: lazily initialise the per-process
adapter, check the file still exists (raising
`FileNotFoundError(f"Audio file not found: \x7bfile_path\x7d")` when it
does not), then run `analyze_file`. -/
def worker_analyse (env : Env) (p : WorkerPayload) (ws : WorkerState) :
    WorkerState × WorkerResult :=
  match initialise_worker env p.pipeline_config p.model_dir ws with
  | .error m => (ws, .failure m)
  | .ok ws' =>
    if !(env.fileExists p.file_path) then
      (ws', .fileNotFound ("Audio file not found: " ++ p.file_path))
    else
      match env.extraction p.track_id p.file_path p.analysis_version with
      | .ok r => (ws', .payload r)
      | .fileNotFound m => (ws', .fileNotFound m)
      | .extractionError m => (ws', .failure m)

/-- A worker process serving a sequence of analysis requests, threading
its `_WORKER_ADAPTER` global through. -/
def runWorker (env : Env) (ws : WorkerState) :
    List WorkerPayload → WorkerState × List WorkerResult
  | [] => (ws, [])
  | p :: ps =>
    let step := worker_analyse env p ws
    let rest := runWorker env step.1 ps
    (rest.1, step.2 :: rest.2)

/-- The result a pool task for payload `p` delivers under environment
`env`, independent of which worker ran it and of how many tasks that
worker had served before (see `worker_analyse_result_of_reachable`). -/
def workerResultOf (env : Env) (p : WorkerPayload) : WorkerResult :=
  if env.engineOk then
    if !(env.fileExists p.file_path) then
      .fileNotFound ("Audio file not found: " ++ p.file_path)
    else
      match env.extraction p.track_id p.file_path p.analysis_version with
      | .ok r => .payload r
      | .fileNotFound m => .fileNotFound m
      | .extractionError m => .failure m
  else
    .failure env.engineErr

/-- `AnalysisPipeline._store_payload`: rebuild the result from the
payload (identity here), `save_analysis` (which itself resolves the
failure row), then `resolve_failure` again.  A raised database error
propagates; the spec's §3 invariant "either the full new record set
lands or persistence fails and no fields change" justifies dropping the
write on failure. -/
def store_payload (env : Env) (st : DBState) (r : TrackAnalysisResult) :
    Except String DBState :=
  match env.persistFail r.track_id with
  | some m => .error m
  | none => .ok (resolve_failure (save_analysis st r) r.track_id)

/-- `AnalysisPipeline._analyze_single` (the sequential path), returning
the updated database state and summary, or the message of a propagated
exception (only `_store_payload` can raise out of this method). -/
def analyze_single (env : Env) (cfg : PipelineConfig)
    (settings : AnalysisSettings) (st : DBState) (track : TrackForAnalysis)
    (summary : BatchSummary) : Except String (DBState × BatchSummary) :=
  if !(env.fileExists track.file_path) then
    .ok (st, { summary with
               skipped := summary.skipped + 1,
               errors := summary.errors ++ [(track.track_id, "File not found")] })
  else if !env.engineOk then
    .ok (record_failure st track.track_id (some track.file_path) env.engineErr,
         { summary with
           failed := summary.failed + 1,
           errors := summary.errors ++ [(track.track_id, env.engineErr)] })
  else
    match env.extraction track.track_id track.file_path
        settings.analysis_version with
    | .fileNotFound _ =>
      .ok (st, { summary with
                 skipped := summary.skipped + 1,
                 errors := summary.errors ++ [(track.track_id, "File not found")] })
    | .extractionError m =>
      .ok (record_failure st track.track_id (some track.file_path) m,
           { summary with
             failed := summary.failed + 1,
             errors := summary.errors ++ [(track.track_id, m)] })
    | .ok r =>
      match store_payload env st r with
      | .error m => .error m
      | .ok st' =>
        .ok (st', { summary with
                    processed := summary.processed + 1,
                    saved := summary.saved + 1 })

/-- The completion handler in `_process_tracks`'s `as_completed` loop
for one finished future.  (In the source `processed` is incremented just
before `_store_payload` and `saved` just after; when the store raises,
the half-updated summary is abandoned with the propagating exception,
so folding both increments into the success arm is observationally
identical.) -/
def handle_completion (env : Env) (st : DBState) (summary : BatchSummary)
    (track : TrackForAnalysis) (res : WorkerResult) :
    Except String (DBState × BatchSummary) :=
  match res with
  | .fileNotFound m =>
    .ok (st, { summary with
               skipped := summary.skipped + 1,
               errors := summary.errors ++ [(track.track_id, m)] })
  | .failure m =>
    .ok (record_failure st track.track_id (some track.file_path) m,
         { summary with
           failed := summary.failed + 1,
           errors := summary.errors ++ [(track.track_id, m)] })
  | .payload r =>
    match store_payload env st r with
    | .error m => .error m
    | .ok st' =>
      .ok (st', { summary with
                  processed := summary.processed + 1,
                  saved := summary.saved + 1 })

/-- The payload built for a track in `_process_tracks`. -/
def payloadOf (cfg : PipelineConfig) (settings : AnalysisSettings)
    (track : TrackForAnalysis) : WorkerPayload :=
  ⟨track.track_id, track.file_path, settings.analysis_version, cfg,
   settings.model_dir⟩

/-- The `as_completed` consumption loop of `_process_tracks`, driven by
the arrival order of the futures (an arbitrary permutation of the
submitted tracks).  A persistence exception stops the loop and
propagates (the `finally` block only shuts the pool down). -/
def consume_completions (env : Env) (cfg : PipelineConfig)
    (settings : AnalysisSettings) :
    DBState → BatchSummary → List TrackForAnalysis →
      Except String (DBState × BatchSummary)
  | st, s, [] => .ok (st, s)
  | st, s, t :: ts =>
    match handle_completion env st s t
        (workerResultOf env (payloadOf cfg settings t)) with
    | .error m => .error m
    | .ok (st', s') => consume_completions env cfg settings st' s' ts

/-- The sequential loop of `_process_tracks`
(`for track in tracks: self._analyze_single(track, summary)`). -/
def run_sequential (env : Env) (cfg : PipelineConfig)
    (settings : AnalysisSettings) :
    DBState → BatchSummary → List TrackForAnalysis →
      Except String (DBState × BatchSummary)
  | st, s, [] => .ok (st, s)
  | st, s, t :: ts =>
    match analyze_single env cfg settings st t s with
    | .error m => .error m
    | .ok (st', s') => run_sequential env cfg settings st' s' ts

/-- `min(self.settings.max_workers, os.cpu_count() or 1)`. -/
def effective_workers (env : Env) (settings : AnalysisSettings) : Nat :=
  min settings.max_workers
    (match env.cpu_count with
     | some n => if n = 0 then 1 else n
     | none => 1)

/-- `AnalysisPipeline._process_tracks`.  `order` is the order in which
`as_completed` yields the futures in the parallel branch (ignored by the
sequential branch). -/
def process_tracks (env : Env) (cfg : PipelineConfig)
    (settings : AnalysisSettings) (st : DBState)
    (tracks : List TrackForAnalysis) (order : List TrackForAnalysis) :
    Except String (DBState × BatchSummary) :=
  let summary : BatchSummary := { requested := tracks.length }
  if tracks.isEmpty then
    .ok (st, summary)
  else if effective_workers env settings ≤ 1 then
    run_sequential env cfg settings st summary tracks
  else
    consume_completions env cfg settings st summary order

/-- Python's `limit or self.settings.batch_size`: `None` and `0` both
fall back to the configured batch size. -/
def resolveLimit (limit : Option Nat) (batch_size : Nat) : Nat :=
  match limit with
  | none => batch_size
  | some n => if n = 0 then batch_size else n

/-- `AnalysisPipeline.analyze_pending`. -/
def analyze_pending (env : Env) (cfg : PipelineConfig)
    (settings : AnalysisSettings) (st : DBState) (limit : Option Nat)
    (order : List TrackForAnalysis) : Except String (DBState × BatchSummary) :=
  let tracks := fetch_tracks_for_analysis st settings.analysis_version
    (resolveLimit limit settings.batch_size) settings.force_reanalyze
  process_tracks env cfg settings st tracks order

/-- `AnalysisPipeline.retry_failures`. -/
def retry_failures (env : Env) (cfg : PipelineConfig)
    (settings : AnalysisSettings) (st : DBState) (limit : Option Nat)
    (order : List TrackForAnalysis) : Except String (DBState × BatchSummary) :=
  let tracks := list_failed_tracks st (resolveLimit limit settings.batch_size)
  process_tracks env cfg settings st tracks order

/-- `AnalysisPipeline.analyze_specific_tracks`: ids with no resolvable
path are dropped before the batch is formed. -/
def analyze_specific_tracks (env : Env) (cfg : PipelineConfig)
    (settings : AnalysisSettings) (st : DBState) (track_ids : List String)
    (order : List TrackForAnalysis) : Except String (DBState × BatchSummary) :=
  let items := track_ids.filterMap (fun tid =>
    (get_track_file_path st tid).map
      (fun p => (⟨tid, p⟩ : TrackForAnalysis)))
  process_tracks env cfg settings st items order

/-! ### Concrete fixtures used by the witnesses and counterexamples -/

/-- Settings with parallelism capped at one worker. -/
def settings0 : AnalysisSettings :=
  ⟨"postgres://local", "essentia-1", 16, 1, false, none⟩

/-- Settings allowing four workers (selects the parallel branch). -/
def settingsPar : AnalysisSettings :=
  ⟨"postgres://local", "essentia-1", 16, 4, false, none⟩

def cfg0 : PipelineConfig := ⟨true⟩

/-- A healthy world: every file exists, the engine constructs, every
extraction returns a record at the required version, every write lands. -/
def env0 : Env :=
  ⟨some 4, fun _ => true, true, "Essentia unavailable",
   fun tid _ _ => .ok ⟨tid, "essentia-1", []⟩, fun _ => none⟩

/-- Like `env0`, but every database write of `save_analysis` raises. -/
def envPersistFail : Env :=
  ⟨some 4, fun _ => true, true, "Essentia unavailable",
   fun tid _ _ => .ok ⟨tid, "essentia-1", []⟩,
   fun _ => some "connection lost during INSERT"⟩

/-- Like `env0`, but no file exists on disk. -/
def envNoFile : Env :=
  ⟨some 4, fun _ => false, true, "Essentia unavailable",
   fun tid _ _ => .ok ⟨tid, "essentia-1", []⟩, fun _ => none⟩

def track0 : TrackRow := ⟨"t1", some "/music/a.mp3", 5⟩

def db0 : DBState := ⟨[track0], [], [], 10⟩

def work0 : List TrackForAnalysis := [⟨"t1", "/music/a.mp3"⟩]

/-- The database after the single track of `db0` is analyzed under
`env0`. -/
def db0saved : DBState := ⟨[track0], [⟨"t1", "essentia-1", 10, []⟩], [], 10⟩

def sum0 : BatchSummary := ⟨1, 1, 1, 0, 0, []⟩

/-- Like `env0`, but the Essentia engine cannot be constructed and no
file exists on disk. -/
def envDown : Env :=
  ⟨some 4, fun _ => false, false, "Essentia libraries are not installed",
   fun tid _ _ => .ok ⟨tid, "essentia-1", []⟩, fun _ => none⟩

/-- A four-track catalog: `a` unanalyzed, `b` stale, `c` current, `d`
without a file path. -/
def db4 : DBState :=
  ⟨[⟨"a", some "/a", 3⟩, ⟨"b", some "/b", 7⟩, ⟨"c", some "/c", 9⟩,
    ⟨"d", none, 8⟩],
   [⟨"b", "old", 1, []⟩, ⟨"c", "essentia-1", 2, []⟩], [], 20⟩

/-- A ledger with one (resolved) failure entry for `t1`. -/
def dbFail : DBState :=
  ⟨[track0], [], [⟨"t1", some "/old", "boom", 3, 7, true⟩], 10⟩

/-- A ledger with one unresolved failure entry for `t1`. -/
def dbC7 : DBState :=
  ⟨[track0], [], [⟨"t1", some "/p", "boom", 2, 7, false⟩], 10⟩

def resC7 : TrackAnalysisResult := ⟨"t1", "essentia-1", []⟩

/-- A ledger with an unresolved path-less entry and an unresolved
path-bearing one. -/
def dbC9 : DBState :=
  ⟨[], [], [⟨"t1", none, "boom", 0, 5, false⟩,
            ⟨"t2", some "/b", "boom2", 1, 6, false⟩], 10⟩

/-- The ledger produced when the one-track batch of `db0` fails with an
unavailable engine in the parallel path. -/
def dbDownFailed : DBState :=
  ⟨[track0], [],
   [⟨"t1", some "/music/a.mp3", "Essentia libraries are not installed",
     0, 10, false⟩], 10⟩

def payload0 : WorkerPayload :=
  ⟨"t1", "/music/a.mp3", "essentia-1", cfg0, none⟩

/-- A worker whose adapter is already cached. -/
def wsCached : WorkerState := ⟨some ⟨⟨none, true⟩⟩, 1⟩

/-! ### Projections used to compare the two execution paths

A per-item step yields either a propagated exception or an updated
(database, summary) pair; the claims about path equivalence compare the
outcome classification (the five counters), the database effect, and
which item ids gained an error entry, while the error message text is
compared separately. -/

def stepCounters : Except String (DBState × BatchSummary) →
    Option (Nat × Nat × Nat × Nat × Nat)
  | .error _ => none
  | .ok (_, s) => some (s.requested, s.processed, s.saved, s.failed, s.skipped)

def stepDB : Except String (DBState × BatchSummary) → Option DBState
  | .error _ => none
  | .ok (st, _) => some st

def stepErrorIds : Except String (DBState × BatchSummary) →
    Option (List String)
  | .error _ => none
  | .ok (_, s) => some (s.errors.map Prod.fst)

/-! ### Shared counting lemmas -/

/-- Each sequential item lands in exactly one of `saved`/`failed`/`skipped`,
leaves `requested` alone, and moves `processed` exactly with `saved`. -/
theorem analyze_single_counts (env : Env) (cfg : PipelineConfig)
    (settings : AnalysisSettings) (st : DBState) (t : TrackForAnalysis)
    (s : BatchSummary) (st' : DBState) (s' : BatchSummary)
    (h : analyze_single env cfg settings st t s = .ok (st', s')) :
    s'.requested = s.requested ∧
    s'.saved + s'.failed + s'.skipped = s.saved + s.failed + s.skipped + 1 ∧
    s'.processed + s.saved = s.processed + s'.saved := by
  unfold analyze_single at h
  split at h
  · simp only [Except.ok.injEq, Prod.mk.injEq] at h
    obtain ⟨-, rfl⟩ := h
    refine ⟨rfl, ?_, ?_⟩ <;> dsimp <;> omega
  split at h
  · simp only [Except.ok.injEq, Prod.mk.injEq] at h
    obtain ⟨-, rfl⟩ := h
    refine ⟨rfl, ?_, ?_⟩ <;> dsimp <;> omega
  split at h
  · simp only [Except.ok.injEq, Prod.mk.injEq] at h
    obtain ⟨-, rfl⟩ := h
    refine ⟨rfl, ?_, ?_⟩ <;> dsimp <;> omega
  · simp only [Except.ok.injEq, Prod.mk.injEq] at h
    obtain ⟨-, rfl⟩ := h
    refine ⟨rfl, ?_, ?_⟩ <;> dsimp <;> omega
  · split at h
    · exact absurd h (by simp)
    · simp only [Except.ok.injEq, Prod.mk.injEq] at h
      obtain ⟨-, rfl⟩ := h
      refine ⟨rfl, ?_, ?_⟩ <;> dsimp <;> omega

/-- Same accounting for one consumed completion of the parallel path. -/
theorem handle_completion_counts (env : Env) (st : DBState)
    (s : BatchSummary) (t : TrackForAnalysis) (res : WorkerResult)
    (st' : DBState) (s' : BatchSummary)
    (h : handle_completion env st s t res = .ok (st', s')) :
    s'.requested = s.requested ∧
    s'.saved + s'.failed + s'.skipped = s.saved + s.failed + s.skipped + 1 ∧
    s'.processed + s.saved = s.processed + s'.saved := by
  unfold handle_completion at h
  split at h
  · simp only [Except.ok.injEq, Prod.mk.injEq] at h
    obtain ⟨-, rfl⟩ := h
    refine ⟨rfl, ?_, ?_⟩ <;> dsimp <;> omega
  · simp only [Except.ok.injEq, Prod.mk.injEq] at h
    obtain ⟨-, rfl⟩ := h
    refine ⟨rfl, ?_, ?_⟩ <;> dsimp <;> omega
  · split at h
    · exact absurd h (by simp)
    · simp only [Except.ok.injEq, Prod.mk.injEq] at h
      obtain ⟨-, rfl⟩ := h
      refine ⟨rfl, ?_, ?_⟩ <;> dsimp <;> omega

/-- Folded accounting for the sequential loop. -/
theorem run_sequential_counts (env : Env) (cfg : PipelineConfig)
    (settings : AnalysisSettings) :
    ∀ (l : List TrackForAnalysis) (st : DBState) (s : BatchSummary)
      (st' : DBState) (s' : BatchSummary),
      run_sequential env cfg settings st s l = .ok (st', s') →
      s'.requested = s.requested ∧
      s'.saved + s'.failed + s'.skipped
        = s.saved + s.failed + s.skipped + l.length ∧
      s'.processed + s.saved = s.processed + s'.saved := by
  intro l
  induction l with
  | nil =>
    intro st s st' s' h
    unfold run_sequential at h
    simp only [Except.ok.injEq, Prod.mk.injEq] at h
    obtain ⟨-, rfl⟩ := h
    simp
  | cons t ts ih =>
    intro st s st' s' h
    unfold run_sequential at h
    split at h
    · exact absurd h (by simp)
    · next st1 s1 heq =>
      obtain ⟨h1, h2, h3⟩ := analyze_single_counts _ _ _ _ _ _ _ _ heq
      obtain ⟨h4, h5, h6⟩ := ih _ _ _ _ h
      refine ⟨by omega, ?_, by omega⟩
      simp only [List.length_cons]
      omega

/-- Folded accounting for the parallel completion loop. -/
theorem consume_completions_counts (env : Env) (cfg : PipelineConfig)
    (settings : AnalysisSettings) :
    ∀ (l : List TrackForAnalysis) (st : DBState) (s : BatchSummary)
      (st' : DBState) (s' : BatchSummary),
      consume_completions env cfg settings st s l = .ok (st', s') →
      s'.requested = s.requested ∧
      s'.saved + s'.failed + s'.skipped
        = s.saved + s.failed + s.skipped + l.length ∧
      s'.processed + s.saved = s.processed + s'.saved := by
  intro l
  induction l with
  | nil =>
    intro st s st' s' h
    unfold consume_completions at h
    simp only [Except.ok.injEq, Prod.mk.injEq] at h
    obtain ⟨-, rfl⟩ := h
    simp
  | cons t ts ih =>
    intro st s st' s' h
    unfold consume_completions at h
    split at h
    · exact absurd h (by simp)
    · next st1 s1 heq =>
      obtain ⟨h1, h2, h3⟩ := handle_completion_counts _ _ _ _ _ _ _ heq
      obtain ⟨h4, h5, h6⟩ := ih _ _ _ _ h
      refine ⟨by omega, ?_, by omega⟩
      simp only [List.length_cons]
      omega

/-- Accounting for any normally-returning `_process_tracks` run:
`requested` is the work-set size, `processed = saved`, and the three
outcome counters sum to the number of items folded (the work set
sequentially, the completion order in parallel). -/
theorem process_tracks_ok_stats (env : Env) (cfg : PipelineConfig)
    (settings : AnalysisSettings) (st : DBState)
    (tracks order : List TrackForAnalysis) (st' : DBState)
    (s : BatchSummary)
    (h : process_tracks env cfg settings st tracks order = .ok (st', s)) :
    s.requested = tracks.length ∧ s.processed = s.saved ∧
    (s.saved + s.failed + s.skipped = tracks.length ∨
      s.saved + s.failed + s.skipped = order.length) := by
  unfold process_tracks at h
  split at h
  · next hEmpty =>
    simp only [Except.ok.injEq, Prod.mk.injEq] at h
    obtain ⟨-, rfl⟩ := h
    rw [List.isEmpty_iff] at hEmpty
    subst hEmpty
    simp
  split at h
  · obtain ⟨h1, h2, h3⟩ := run_sequential_counts _ _ _ _ _ _ _ _ h
    dsimp at h1 h2 h3
    exact ⟨by omega, by omega, Or.inl (by omega)⟩
  · obtain ⟨h1, h2, h3⟩ := consume_completions_counts _ _ _ _ _ _ _ _ h
    dsimp at h1 h2 h3
    exact ⟨by omega, by omega, Or.inr (by omega)⟩

/-! ### Claims -/

/-- Claim C2: for every batch run whose work set was drawn from a
selection query (`analyze_pending` or `retry_failures`), the returned
`BatchSummary` satisfies `requested = saved + failed + skipped` — every
item in the work set is counted in exactly one of the three outcome
counters.  `order`, the arrival order of the parallel completions,
ranges over permutations of the work set. -/
theorem c2_selection_query_accounting (env : Env) (cfg : PipelineConfig)
    (settings : AnalysisSettings) (st : DBState) (limit : Option Nat)
    (order : List TrackForAnalysis) (st' : DBState) (s : BatchSummary) :
    (order.Perm (fetch_tracks_for_analysis st settings.analysis_version
        (resolveLimit limit settings.batch_size) settings.force_reanalyze) →
      analyze_pending env cfg settings st limit order = .ok (st', s) →
      s.requested = s.saved + s.failed + s.skipped)
    ∧ (order.Perm (list_failed_tracks st
        (resolveLimit limit settings.batch_size)) →
      retry_failures env cfg settings st limit order = .ok (st', s) →
      s.requested = s.saved + s.failed + s.skipped) := by
  constructor
  · intro hperm h
    unfold analyze_pending at h
    obtain ⟨h1, h2, h3⟩ := process_tracks_ok_stats _ _ _ _ _ _ _ _ h
    have hl := hperm.length_eq
    omega
  · intro hperm h
    unfold retry_failures at h
    obtain ⟨h1, h2, h3⟩ := process_tracks_ok_stats _ _ _ _ _ _ _ _ h
    have hl := hperm.length_eq
    omega

/-- Witness for C2 at a concrete one-track catalog. -/
theorem c2_selection_query_accounting_witness :
    analyze_pending env0 cfg0 settings0 db0 none work0 = .ok (db0saved, sum0)
    ∧ sum0.requested = sum0.saved + sum0.failed + sum0.skipped := by
  have hrun : analyze_pending env0 cfg0 settings0 db0 none work0
      = .ok (db0saved, sum0) := by rfl
  have hfetch : fetch_tracks_for_analysis db0 settings0.analysis_version
      (resolveLimit none settings0.batch_size) settings0.force_reanalyze
      = work0 := by rfl
  refine ⟨hrun, ?_⟩
  exact (c2_selection_query_accounting env0 cfg0 settings0 db0 none work0
    db0saved sum0).1 (hfetch ▸ List.Perm.refl work0) hrun

/-- Claim C10: in every `BatchSummary` that a public orchestrator
operation actually returns (normal return, no propagated exception),
the `processed` counter equals the `saved` counter. -/
theorem c10_processed_equals_saved (env : Env) (cfg : PipelineConfig)
    (settings : AnalysisSettings) (st : DBState) (limit : Option Nat)
    (track_ids : List String) (order : List TrackForAnalysis)
    (st' : DBState) (s : BatchSummary) :
    (analyze_pending env cfg settings st limit order = .ok (st', s) →
      s.processed = s.saved)
    ∧ (retry_failures env cfg settings st limit order = .ok (st', s) →
      s.processed = s.saved)
    ∧ (analyze_specific_tracks env cfg settings st track_ids order
        = .ok (st', s) →
      s.processed = s.saved) := by
  refine ⟨fun h => ?_, fun h => ?_, fun h => ?_⟩
  · unfold analyze_pending at h
    exact (process_tracks_ok_stats _ _ _ _ _ _ _ _ h).2.1
  · unfold retry_failures at h
    exact (process_tracks_ok_stats _ _ _ _ _ _ _ _ h).2.1
  · unfold analyze_specific_tracks at h
    exact (process_tracks_ok_stats _ _ _ _ _ _ _ _ h).2.1

/-- Witness for C10 at a concrete one-track catalog. -/
theorem c10_processed_equals_saved_witness :
    analyze_pending env0 cfg0 settings0 db0 none work0 = .ok (db0saved, sum0)
    ∧ sum0.processed = sum0.saved := by
  have hrun : analyze_pending env0 cfg0 settings0 db0 none work0
      = .ok (db0saved, sum0) := by rfl
  exact ⟨hrun, (c10_processed_equals_saved env0 cfg0 settings0 db0 none []
    work0 db0saved sum0).1 hrun⟩

/-- Claim C1, counterexample: a batch run over one item whose extraction
succeeds but whose store write raises does not continue with
`failed = 1` — the exception propagates out of `analyze_pending`
(`_store_payload` is called outside the `try`/`except` of both
execution paths). -/
theorem c1_persistence_error_counterexample :
    analyze_pending envPersistFail cfg0 settings0 db0 none work0
      = .error "connection lost during INSERT" := by
  rfl

/-- Claim C1, amended: when a completed item's persistence step raises,
the exception propagates out of the run in both execution paths; the
`failed` counter, the error list and the Failure Ledger are not updated
for that item. -/
theorem c1_persistence_error_propagates (env : Env) (cfg : PipelineConfig)
    (settings : AnalysisSettings) (st : DBState) (t : TrackForAnalysis)
    (s : BatchSummary) (r : TrackAnalysisResult) (m : String)
    (hfile : env.fileExists t.file_path = true)
    (hengine : env.engineOk = true)
    (hex : env.extraction t.track_id t.file_path settings.analysis_version
      = .ok r)
    (hpersist : env.persistFail r.track_id = some m) :
    analyze_single env cfg settings st t s = .error m
    ∧ handle_completion env st s t
        (workerResultOf env (payloadOf cfg settings t)) = .error m := by
  constructor
  · unfold analyze_single store_payload
    rw [hfile, hengine]
    simp only [Bool.not_true, Bool.false_eq_true, if_false, hex, hpersist]
  · unfold handle_completion workerResultOf payloadOf store_payload
    rw [hengine, hfile]
    simp only [Bool.not_true, Bool.false_eq_true, if_true, if_false]
    simp only [hex, hpersist]

/-- Witness for the amended C1 at a concrete failing store. -/
theorem c1_persistence_error_propagates_witness :
    envPersistFail.fileExists "/music/a.mp3" = true
    ∧ envPersistFail.engineOk = true
    ∧ envPersistFail.extraction "t1" "/music/a.mp3"
        settings0.analysis_version = .ok ⟨"t1", "essentia-1", []⟩
    ∧ envPersistFail.persistFail "t1" = some "connection lost during INSERT"
    ∧ analyze_single envPersistFail cfg0 settings0 db0
        ⟨"t1", "/music/a.mp3"⟩ { requested := 1 }
        = .error "connection lost during INSERT" := by
  refine ⟨rfl, rfl, rfl, rfl, ?_⟩
  exact (c1_persistence_error_propagates envPersistFail cfg0 settings0 db0
    ⟨"t1", "/music/a.mp3"⟩ { requested := 1 } ⟨"t1", "essentia-1", []⟩
    "connection lost during INSERT" rfl rfl rfl rfl).1

/-! ### Worker-state lemmas -/

/-- The result a worker delivers for a payload does not depend on the
worker's state, for any state reachable under the run's environment
(a cached adapter can only exist when construction succeeds). -/
theorem worker_analyse_result_of_reachable (env : Env) (p : WorkerPayload)
    (ws : WorkerState) (h : ws.adapter = none ∨ env.engineOk = true) :
    (worker_analyse env p ws).2 = workerResultOf env p := by
  cases hws : ws.adapter with
  | none =>
    cases he : env.engineOk with
    | false => simp [worker_analyse, initialise_worker, workerResultOf, hws, he]
    | true =>
      by_cases hf : env.fileExists p.file_path
      · cases hex : env.extraction p.track_id p.file_path p.analysis_version <;>
          simp [worker_analyse, initialise_worker, workerResultOf, hws, he, hf,
            hex]
      · simp [worker_analyse, initialise_worker, workerResultOf, hws, he, hf]
  | some a =>
    have he : env.engineOk = true := by
      cases h with
      | inl h0 => rw [hws] at h0; cases h0
      | inr h0 => exact h0
    by_cases hf : env.fileExists p.file_path
    · cases hex : env.extraction p.track_id p.file_path p.analysis_version <;>
        simp [worker_analyse, initialise_worker, workerResultOf, hws, he, hf,
          hex]
    · simp [worker_analyse, initialise_worker, workerResultOf, hws, he, hf]

/-- A cached adapter is reused: a single request leaves the worker state
untouched. -/
theorem worker_analyse_state_cached (env : Env) (p : WorkerPayload)
    (ws : WorkerState) (a : EssentiaAdapter) (h : ws.adapter = some a) :
    (worker_analyse env p ws).1 = ws := by
  unfold worker_analyse initialise_worker
  simp only [h]
  split
  · rfl
  · cases env.extraction p.track_id p.file_path p.analysis_version <;> rfl

/-- A failed construction leaves the worker state untouched (the global
stays `None`). -/
theorem worker_analyse_state_engine_down (env : Env) (p : WorkerPayload)
    (ws : WorkerState) (h1 : ws.adapter = none) (h2 : env.engineOk = false) :
    (worker_analyse env p ws).1 = ws := by
  unfold worker_analyse initialise_worker
  simp [h1, h2]

/-- The first request on a fresh worker constructs the adapter from the
payload's configuration. -/
theorem worker_analyse_state_first (env : Env) (p : WorkerPayload)
    (ws : WorkerState) (h1 : ws.adapter = none) (h2 : env.engineOk = true) :
    (worker_analyse env p ws).1
      = ⟨some ⟨mkEssentiaConfig p.pipeline_config p.model_dir⟩,
         ws.constructions + 1⟩ := by
  unfold worker_analyse initialise_worker
  simp only [h1, h2, if_true]
  split
  · rfl
  · cases env.extraction p.track_id p.file_path p.analysis_version <;> rfl

/-- A worker with a cached adapter keeps exactly that state across any
request sequence. -/
theorem run_worker_cached_state (env : Env) :
    ∀ (ps : List WorkerPayload) (ws : WorkerState) (a : EssentiaAdapter),
      ws.adapter = some a → (runWorker env ws ps).1 = ws := by
  intro ps
  induction ps with
  | nil => intro ws a _; rfl
  | cons p rest ih =>
    intro ws a h
    show (runWorker env (worker_analyse env p ws).1 rest).1 = ws
    rw [worker_analyse_state_cached env p ws a h]
    exact ih ws a h

/-- When the engine cannot be constructed, the worker state never
changes. -/
theorem run_worker_engine_down_state (env : Env)
    (h2 : env.engineOk = false) :
    ∀ (ps : List WorkerPayload) (ws : WorkerState),
      ws.adapter = none → (runWorker env ws ps).1 = ws := by
  intro ps
  induction ps with
  | nil => intro ws _; rfl
  | cons p rest ih =>
    intro ws h1
    show (runWorker env (worker_analyse env p ws).1 rest).1 = ws
    rw [worker_analyse_state_engine_down env p ws h1 h2]
    exact ih ws h1

/-- Claim C8: within every worker execution unit the extraction engine
is constructed at most once, on the first analysis request, from the
model-directory and embedding-flag configuration of that request's
payload; every later request reuses the cached instance unchanged, and
a unit that receives no work never constructs an engine. -/
theorem c8_worker_constructs_engine_once (env : Env) (p : WorkerPayload)
    (ps : List WorkerPayload) (ws : WorkerState) (a : EssentiaAdapter) :
    (runWorker env initWorkerState ps).1.constructions ≤ 1
    ∧ (runWorker env initWorkerState []).1 = initWorkerState
    ∧ (env.engineOk = true →
        (runWorker env initWorkerState (p :: ps)).1
          = ⟨some ⟨mkEssentiaConfig p.pipeline_config p.model_dir⟩, 1⟩)
    ∧ (ws.adapter = some a → (runWorker env ws ps).1 = ws) := by
  have hfirst : env.engineOk = true → ∀ q qs,
      (runWorker env initWorkerState (q :: qs)).1
        = ⟨some ⟨mkEssentiaConfig q.pipeline_config q.model_dir⟩, 1⟩ := by
    intro he q qs
    show (runWorker env (worker_analyse env q initWorkerState).1 qs).1 = _
    rw [worker_analyse_state_first env q initWorkerState rfl he]
    exact run_worker_cached_state env qs _ _ rfl
  refine ⟨?_, rfl, fun he => hfirst he p ps, run_worker_cached_state env ps ws a⟩
  cases he : env.engineOk with
  | false =>
    rw [run_worker_engine_down_state env he ps initWorkerState rfl]
    exact Nat.zero_le 1
  | true =>
    cases ps with
    | nil => exact Nat.zero_le 1
    | cons q qs => rw [hfirst he q qs]

/-- Witness for C8: a two-request unit under `env0` constructs once and
caches; a pre-cached unit never reconstructs. -/
theorem c8_worker_constructs_engine_once_witness :
    env0.engineOk = true
    ∧ wsCached.adapter = some ⟨⟨none, true⟩⟩
    ∧ (runWorker env0 initWorkerState [payload0, payload0]).1
        = ⟨some ⟨mkEssentiaConfig cfg0 none⟩, 1⟩
    ∧ (runWorker env0 wsCached [payload0]).1 = wsCached := by
  refine ⟨rfl, rfl, ?_, ?_⟩
  · exact (c8_worker_constructs_engine_once env0 payload0 [payload0]
      wsCached ⟨⟨none, true⟩⟩).2.2.1 rfl
  · exact (c8_worker_constructs_engine_once env0 payload0 [payload0]
      wsCached ⟨⟨none, true⟩⟩).2.2.2 rfl

/-- Claim C3, counterexample: under an environment where the engine is
unavailable and the file is missing, the sequential path classifies the
item `skipped` with entry `(t1, "File not found")`, while the parallel
path classifies the same item `failed` with the construction error and
writes a ledger entry — the two paths do not assign the same outcome. -/
theorem c3_paths_counterexample :
    process_tracks envDown cfg0 settings0 db0 work0 work0
      = .ok (db0, ⟨1, 0, 0, 0, 1, [("t1", "File not found")]⟩)
    ∧ process_tracks envDown cfg0 settingsPar db0 work0 work0
      = .ok (dbDownFailed,
          ⟨1, 0, 0, 1, 0,
           [("t1", "Essentia libraries are not installed")]⟩)
    ∧ (⟨1, 0, 0, 0, 1, [("t1", "File not found")]⟩ : BatchSummary).failed
        ≠ (⟨1, 0, 0, 1, 0,
            [("t1", "Essentia libraries are not installed")]⟩ :
            BatchSummary).failed := by
  refine ⟨rfl, rfl, by decide⟩

/-- Claim C3, amended: provided the engine is constructible in the
run's environment, the sequential path and the parallel worker-pool
path assign every item the same outcome classification (the same five
counters), the same database effect, and an error entry for the same
item id; the error message text differs for missing-file skips
(sequential `"File not found"`, parallel the raised exception text). -/
theorem c3_sequential_parallel_equivalence (env : Env)
    (cfg : PipelineConfig) (settings : AnalysisSettings) (st : DBState)
    (s : BatchSummary) (t : TrackForAnalysis) (ws : WorkerState)
    (hengine : env.engineOk = true) :
    stepCounters (analyze_single env cfg settings st t s)
      = stepCounters (handle_completion env st s t
          ((worker_analyse env (payloadOf cfg settings t) ws).2))
    ∧ stepDB (analyze_single env cfg settings st t s)
      = stepDB (handle_completion env st s t
          ((worker_analyse env (payloadOf cfg settings t) ws).2))
    ∧ stepErrorIds (analyze_single env cfg settings st t s)
      = stepErrorIds (handle_completion env st s t
          ((worker_analyse env (payloadOf cfg settings t) ws).2)) := by
  rw [worker_analyse_result_of_reachable env _ ws (Or.inr hengine)]
  unfold analyze_single handle_completion workerResultOf payloadOf
  rw [hengine]
  by_cases hf : env.fileExists t.file_path
  · simp only [hf, Bool.not_true, Bool.false_eq_true, if_false, if_true]
    cases hex : env.extraction t.track_id t.file_path
        settings.analysis_version with
    | ok r =>
      cases hpf : env.persistFail r.track_id with
      | none =>
        simp [store_payload, hpf, stepCounters, stepDB, stepErrorIds]
      | some m =>
        simp [store_payload, hpf, stepCounters, stepDB, stepErrorIds]
    | fileNotFound m =>
      simp [stepCounters, stepDB, stepErrorIds]
    | extractionError m =>
      simp [stepCounters, stepDB, stepErrorIds]
  · simp only [Bool.not_eq_true] at hf
    simp [hf, stepCounters, stepDB, stepErrorIds]

/-- Witness for the amended C3 at a healthy one-track environment. -/
theorem c3_sequential_parallel_equivalence_witness :
    env0.engineOk = true
    ∧ stepCounters (analyze_single env0 cfg0 settings0 db0
        ⟨"t1", "/music/a.mp3"⟩ { requested := 1 })
      = stepCounters (handle_completion env0 db0 { requested := 1 }
          ⟨"t1", "/music/a.mp3"⟩
          ((worker_analyse env0
              (payloadOf cfg0 settings0 ⟨"t1", "/music/a.mp3"⟩)
              initWorkerState).2)) := by
  exact ⟨rfl, (c3_sequential_parallel_equivalence env0 cfg0 settings0 db0
    { requested := 1 } ⟨"t1", "/music/a.mp3"⟩ initWorkerState rfl).1⟩

/-- Claim C5, counterexample: in the parallel path a missing-file item
is skipped with the entry `(t1, "Audio file not found: /music/a.mp3")`,
not the claimed `(t1, "File not found")`. -/
theorem c5_missing_file_counterexample :
    process_tracks envNoFile cfg0 settingsPar db0 work0 work0
      = .ok (db0,
          ⟨1, 0, 0, 0, 1, [("t1", "Audio file not found: /music/a.mp3")]⟩)
    ∧ (⟨1, 0, 0, 0, 1, [("t1", "Audio file not found: /music/a.mp3")]⟩ :
        BatchSummary).errors
        ≠ [("t1", "File not found")] := by
  refine ⟨rfl, by decide⟩

/-- Claim C5, amended: a missing-file item increments `skipped` (never
`failed`) and leaves the database — in particular the Failure Ledger —
completely unchanged in both paths (given a constructible engine in the
parallel path, which checks the file only after engine initialisation);
the appended error entry is `(item_id, "File not found")` sequentially
and `(item_id, "Audio file not found: <path>")` in the parallel path. -/
theorem c5_missing_file_skips_without_ledger_touch (env : Env)
    (cfg : PipelineConfig) (settings : AnalysisSettings) (st : DBState)
    (s : BatchSummary) (t : TrackForAnalysis)
    (hfile : env.fileExists t.file_path = false)
    (hengine : env.engineOk = true) :
    analyze_single env cfg settings st t s
      = .ok (st, { s with
                   skipped := s.skipped + 1,
                   errors := s.errors ++ [(t.track_id, "File not found")] })
    ∧ handle_completion env st s t
        (workerResultOf env (payloadOf cfg settings t))
      = .ok (st, { s with
                   skipped := s.skipped + 1,
                   errors := s.errors ++
                     [(t.track_id, "Audio file not found: " ++ t.file_path)] }) := by
  constructor
  · unfold analyze_single
    simp [hfile]
  · unfold handle_completion workerResultOf payloadOf
    simp [hengine, hfile]

/-- Witness for the amended C5 at a concrete missing file. -/
theorem c5_missing_file_skips_without_ledger_touch_witness :
    envNoFile.fileExists "/music/a.mp3" = false
    ∧ envNoFile.engineOk = true
    ∧ analyze_single envNoFile cfg0 settings0 db0 ⟨"t1", "/music/a.mp3"⟩
        { requested := 1 }
      = .ok (db0, { requested := 1, skipped := 1,
                    errors := [("t1", "File not found")] }) := by
  refine ⟨rfl, rfl, ?_⟩
  have h := (c5_missing_file_skips_without_ledger_touch envNoFile cfg0
    settings0 db0 { requested := 1 } ⟨"t1", "/music/a.mp3"⟩ rfl rfl).1
  exact h

/-! ### Storage lemmas -/

theorem pathNonEmpty_iff (o : Option String) :
    pathNonEmpty o = true ↔ ∃ s, o = some s ∧ s ≠ "" := by
  cases o with
  | none => simp [pathNonEmpty]
  | some s => simp [pathNonEmpty]

/-- Rows produced by the selection query come from `tracks` and satisfy
the `WHERE` clause. -/
theorem mem_analysisQueryRows (st : DBState) (v : String) (l : Nat)
    (f : Bool) (t : TrackRow) (h : t ∈ analysisQueryRows st v l f) :
    t ∈ st.tracks ∧ pendingWhere st v f t = true := by
  unfold analysisQueryRows at h
  have h1 := List.take_subset _ _ h
  rw [List.mem_insertionSort] at h1
  exact ⟨List.mem_of_mem_filter h1, List.of_mem_filter h1⟩

/-- The Python-side truthiness filter drops nothing: the SQL `WHERE`
already excludes null/empty paths. -/
theorem fetch_eq_queryRows_map (st : DBState) (v : String) (l : Nat)
    (f : Bool) :
    fetch_tracks_for_analysis st v l f
      = (analysisQueryRows st v l f).map
          (fun t => ⟨t.id, t.filePath.getD ""⟩) := by
  unfold fetch_tracks_for_analysis
  congr 1
  rw [List.filter_eq_self]
  intro t ht
  have hp := (mem_analysisQueryRows st v l f t ht).2
  unfold pendingWhere at hp
  simp only [Bool.and_eq_true] at hp
  exact hp.1

/-- Every selected work item is backed by an eligible catalog row with
its exact non-empty path. -/
theorem mem_fetch_tracks (st : DBState) (v : String) (l : Nat) (f : Bool)
    (x : TrackForAnalysis) (hx : x ∈ fetch_tracks_for_analysis st v l f) :
    x.file_path ≠ "" ∧ ∃ t ∈ st.tracks, t.id = x.track_id ∧
      t.filePath = some x.file_path ∧ pendingWhere st v f t = true := by
  rw [fetch_eq_queryRows_map] at hx
  obtain ⟨t, ht, hteq⟩ := List.mem_map.mp hx
  obtain ⟨htr, hpend⟩ := mem_analysisQueryRows st v l f t ht
  have hpath : pathNonEmpty t.filePath = true := by
    unfold pendingWhere at hpend
    simp only [Bool.and_eq_true] at hpend
    exact hpend.1
  obtain ⟨sval, hsome, hne⟩ := (pathNonEmpty_iff t.filePath).mp hpath
  subst hteq
  simp only [hsome, Option.getD_some]
  exact ⟨hne, t, htr, rfl, hsome, hpend⟩

/-- Claim C4: `fetch_tracks_for_analysis` returns exactly the first
`limit` rows of the most-recently-updated-first ordering of the
eligible items (no record, stale record, or every path-bearing item
under `force`); it never exceeds `limit`, never returns a null/empty
path, returns every eligible item whenever they fit within `limit`, and
excludes any item whose record already matches the required version in
a non-force call. -/
theorem c4_select_pending_characterised (st : DBState) (version : String)
    (limit : Nat) (force : Bool) :
    fetch_tracks_for_analysis st version limit force
      = (analysisQueryRows st version limit force).map
          (fun t => ⟨t.id, t.filePath.getD ""⟩)
    ∧ (fetch_tracks_for_analysis st version limit force).length ≤ limit
    ∧ List.Sorted updatedAtDesc (analysisQueryRows st version limit force)
    ∧ (∀ x ∈ fetch_tracks_for_analysis st version limit force,
        x.file_path ≠ "" ∧ ∃ t ∈ st.tracks,
          t.id = x.track_id ∧ t.filePath = some x.file_path ∧
          pendingWhere st version force t = true)
    ∧ ((st.tracks.filter (pendingWhere st version force)).length ≤ limit →
        ∀ t ∈ st.tracks, pendingWhere st version force t = true →
          t.id ∈ (fetch_tracks_for_analysis st version limit force).map
            TrackForAnalysis.track_id)
    ∧ (∀ x ∈ fetch_tracks_for_analysis st version limit force, ∀ aa,
        force = false → lookupAnalysis st x.track_id = some aa →
        aa.analysisVersion ≠ version) := by
  refine ⟨fetch_eq_queryRows_map st version limit force, ?_, ?_, ?_, ?_, ?_⟩
  · rw [fetch_eq_queryRows_map, List.length_map]
    unfold analysisQueryRows
    rw [List.length_take]
    exact min_le_left _ _
  · unfold analysisQueryRows
    exact List.Pairwise.sublist (List.take_sublist _ _)
      (List.sorted_insertionSort updatedAtDesc _)
  · exact mem_fetch_tracks st version limit force
  · intro hlen t ht hp
    have hqr : analysisQueryRows st version limit force
        = List.insertionSort updatedAtDesc
            (st.tracks.filter (pendingWhere st version force)) := by
      unfold analysisQueryRows
      exact List.take_of_length_le
        (by rw [List.length_insertionSort]; exact hlen)
    rw [fetch_eq_queryRows_map, List.map_map]
    refine List.mem_map.mpr ⟨t, ?_, rfl⟩
    rw [hqr, List.mem_insertionSort]
    exact List.mem_filter.mpr ⟨ht, hp⟩
  · intro x hx aa hforce hlook
    obtain ⟨-, t, -, hid, -, hpend⟩ :=
      mem_fetch_tracks st version limit force x hx
    unfold pendingWhere at hpend
    simp only [Bool.and_eq_true, Bool.or_eq_true] at hpend
    rcases hpend.2 with hforce' | hmatch
    · rw [hforce] at hforce'
      cases hforce'
    · rw [hid, hlook] at hmatch
      simpa using hmatch

/-- Witness for C4 on a four-track catalog: the stale and the
unanalyzed item are returned newest-first, the current-version and the
path-less items are excluded. -/
theorem c4_select_pending_characterised_witness :
    fetch_tracks_for_analysis db4 "essentia-1" 2 false
      = [⟨"b", "/b"⟩, ⟨"a", "/a"⟩]
    ∧ List.Sorted updatedAtDesc (analysisQueryRows db4 "essentia-1" 2 false)
    ∧ (fetch_tracks_for_analysis db4 "essentia-1" 2 false).length ≤ 2
    ∧ "a" ∈ (fetch_tracks_for_analysis db4 "essentia-1" 2 false).map
        TrackForAnalysis.track_id
    ∧ (⟨"b", "old", 1, []⟩ : AnalysisRow).analysisVersion ≠ "essentia-1" := by
  have h := c4_select_pending_characterised db4 "essentia-1" 2 false
  refine ⟨rfl, h.2.2.1, h.2.1, ?_, ?_⟩
  · exact h.2.2.2.2.1 (by decide) ⟨"a", some "/a", 3⟩ (by decide) (by decide)
  · exact h.2.2.2.2.2 ⟨"b", "/b"⟩ (by decide) ⟨"b", "old", 1, []⟩ rfl rfl

/-- `find?` by track id commutes with an `UPDATE ... WHERE "trackId" =`
row rewrite that preserves the track id. -/
theorem find?_update (tid : String) (upd : FailureRow → FailureRow)
    (hupd : ∀ f, (upd f).trackId = f.trackId) :
    ∀ (l : List FailureRow) (e : FailureRow),
      l.find? (fun f => f.trackId == tid) = some e →
      (l.map (fun f => if f.trackId == tid then upd f else f)).find?
        (fun f => f.trackId == tid) = some (upd e) := by
  intro l
  induction l with
  | nil => intro e h; cases h
  | cons g gs ih =>
    intro e h
    cases hg : (g.trackId == tid) with
    | true =>
      rw [List.find?_cons_of_pos (p := fun (f : FailureRow) => f.trackId == tid) _ hg] at h
      injection h with h
      subst h
      have hhead : (((if (g.trackId == tid) = true then upd g
          else g) : FailureRow).trackId == tid) = true := by
        rw [if_pos hg, hupd]
        exact hg
      rw [List.map_cons,
        List.find?_cons_of_pos (p := fun (f : FailureRow) => f.trackId == tid) _ hhead,
        if_pos hg]
    | false =>
      have hne : ¬ ((g.trackId == tid) = true) := by simp [hg]
      rw [List.find?_cons_of_neg (p := fun (f : FailureRow) => f.trackId == tid) _ hne] at h
      have hhead : ¬ ((((if (g.trackId == tid) = true then upd g
          else g) : FailureRow).trackId == tid) = true) := by
        rw [if_neg hne]
        exact hne
      rw [List.map_cons,
        List.find?_cons_of_neg (p := fun (f : FailureRow) => f.trackId == tid) _ hhead]
      exact ih e h

/-- Effect of `record_failure` when a ledger row for the track already
exists: the `INSERT` hits the unique constraint and the `UPDATE` path
rewrites exactly that row. -/
theorem record_failure_existing (st : DBState) (tid : String)
    (path : Option String) (err : String) (e : FailureRow)
    (he : failureFor st tid = some e) :
    failureFor (record_failure st tid path err) tid
      = some (recordFailureUpdate path err st.now e)
    ∧ (record_failure st tid path err).failures.length = st.failures.length
    ∧ (record_failure st tid path err).now = st.now := by
  have he' : st.failures.find? (fun f => f.trackId == tid) = some e := he
  have hetid : (e.trackId == tid) = true :=
    List.find?_some (p := fun (f : FailureRow) => f.trackId == tid) he'
  have hany : (st.failures.any (fun f => f.trackId == tid)) = true :=
    List.any_eq_true.mpr
      ⟨e, List.mem_of_find?_eq_some (p := fun (f : FailureRow) => f.trackId == tid) he',
        hetid⟩
  have hrec : record_failure st tid path err
      = { st with failures := st.failures.map (fun f =>
          if f.trackId == tid then recordFailureUpdate path err st.now f
          else f) } := by
    unfold record_failure
    rw [if_pos hany]
  refine ⟨?_, by rw [hrec]; exact List.length_map _ _, by rw [hrec]⟩
  rw [hrec]
  unfold failureFor
  exact find?_update tid (recordFailureUpdate path err st.now)
    (fun f => rfl) st.failures e he

/-- Claim C6: `record_failure` inserts exactly one fresh entry when none
exists (with the modelled column defaults), and otherwise updates the
existing entry in place — `retry_count + 1`, message overwritten,
timestamp refreshed, `resolved` forced to false — so consecutive
failures raise `retry_count` by exactly one each and the one-row-per-item
invariant is preserved. -/
theorem c6_record_failure_upserts (st : DBState) (tid : String)
    (path path2 : Option String) (err err2 : String) :
    (failureFor st tid = none →
      record_failure st tid path err
        = { st with failures := st.failures ++
            [⟨tid, path, err, 0, st.now, false⟩] })
    ∧ (∀ e, failureFor st tid = some e →
        failureFor (record_failure st tid path err) tid
          = some ⟨e.trackId,
              (match path with | some p => some p | none => e.filePath),
              err, e.retryCount + 1, st.now, false⟩
        ∧ (record_failure st tid path err).failures.length
            = st.failures.length)
    ∧ (∀ e, failureFor st tid = some e →
        (failureFor (record_failure (record_failure st tid path err)
            tid path2 err2) tid).map FailureRow.retryCount
          = some (e.retryCount + 2))
    ∧ (st.failures.Pairwise (fun a b => a.trackId ≠ b.trackId) →
        (record_failure st tid path err).failures.Pairwise
          (fun a b => a.trackId ≠ b.trackId)) := by
    refine ⟨?_, ?_, ?_, ?_⟩
    · intro hnone
      have hany : ¬ ((st.failures.any (fun f => f.trackId == tid)) = true) := by
        rw [List.any_eq_true]
        rintro ⟨f, hf, hft⟩
        exact (List.find?_eq_none.mp hnone) f hf hft
      unfold record_failure
      rw [if_neg hany]
    · intro e he
      exact ⟨(record_failure_existing st tid path err e he).1,
        (record_failure_existing st tid path err e he).2.1⟩
    · intro e he
      obtain ⟨h1, -, h3⟩ := record_failure_existing st tid path err e he
      obtain ⟨h4, -, -⟩ := record_failure_existing
        (record_failure st tid path err) tid path2 err2 _ h1
      rw [h4]
      rfl
    · intro hp
      unfold record_failure
      by_cases hany : (st.failures.any (fun f => f.trackId == tid)) = true
      · rw [if_pos hany]
        refine List.Pairwise.map _ (fun a b hab => ?_) hp
        have ha : ((if (a.trackId == tid) = true then
            recordFailureUpdate path err st.now a else a) :
            FailureRow).trackId = a.trackId := by
          split <;> rfl
        have hb : ((if (b.trackId == tid) = true then
            recordFailureUpdate path err st.now b else b) :
            FailureRow).trackId = b.trackId := by
          split <;> rfl
        show _ ≠ _
        rw [ha, hb]
        exact hab
      · rw [if_neg hany]
        rw [List.any_eq_true] at hany
        push_neg at hany
        refine List.pairwise_append.mpr ⟨hp, List.pairwise_singleton _ _, ?_⟩
        intro a ha b hb
        rw [List.mem_singleton] at hb
        subst hb
        show a.trackId ≠ tid
        intro hcontra
        exact hany a ha (by rw [hcontra]; exact beq_self_eq_true tid)

/-- Witness for C6: a fresh failure is inserted with the defaults; the
existing (resolved) entry of `dbFail` is bumped from retry 3 to 4,
unresolved, with the path coalesced to the new one. -/
theorem c6_record_failure_upserts_witness :
    failureFor db0 "t1" = none
    ∧ record_failure db0 "t1" (some "/music/a.mp3") "boom"
        = { db0 with failures :=
            [⟨"t1", some "/music/a.mp3", "boom", 0, 10, false⟩] }
    ∧ failureFor dbFail "t1" = some ⟨"t1", some "/old", "boom", 3, 7, true⟩
    ∧ failureFor (record_failure dbFail "t1" (some "/music/a.mp3") "err2")
        "t1" = some ⟨"t1", some "/music/a.mp3", "err2", 4, 10, false⟩ := by
  have h0 := c6_record_failure_upserts db0 "t1" (some "/music/a.mp3") none
    "boom" ""
  have h1 := c6_record_failure_upserts dbFail "t1" (some "/music/a.mp3")
    none "err2" ""
  refine ⟨rfl, h0.1 rfl, rfl, ?_⟩
  exact (h1.2.1 ⟨"t1", some "/old", "boom", 3, 7, true⟩ rfl).1

/-- `save_analysis` rewrites the ledger exactly like
`resolve_failure`. -/
theorem save_analysis_failures (st : DBState) (r : TrackAnalysisResult) :
    (save_analysis st r).failures
      = st.failures.map (fun f =>
          if f.trackId == r.track_id then resolveUpdate st.now f else f) :=
  rfl

/-- Any work item returned by `list_failed_tracks` is backed by an
unresolved, path-bearing ledger row for the same track id. -/
theorem mem_list_failed_tracks (st : DBState) (n : Nat)
    (x : TrackForAnalysis) (hx : x ∈ list_failed_tracks st n) :
    ∃ f ∈ st.failures, f.trackId = x.track_id ∧ f.resolved = false ∧
      pathNonEmpty f.filePath = true := by
  unfold list_failed_tracks at hx
  obtain ⟨f, hf, hfeq⟩ := List.mem_map.mp hx
  have hfp : pathNonEmpty f.filePath = true :=
    List.of_mem_filter (p := fun (f : FailureRow) => pathNonEmpty f.filePath) hf
  have hf1 : f ∈ failedQueryRows st n :=
    List.mem_of_mem_filter (p := fun (f : FailureRow) => pathNonEmpty f.filePath) hf
  unfold failedQueryRows at hf1
  have hf2 := List.take_subset _ _ hf1
  rw [List.mem_insertionSort] at hf2
  have hf3 : f ∈ st.failures :=
    List.mem_of_mem_filter (p := fun (f : FailureRow) => !f.resolved) hf2
  have hres : (!f.resolved) = true :=
    List.of_mem_filter (p := fun (f : FailureRow) => !f.resolved) hf2
  subst hfeq
  exact ⟨f, hf3, rfl, by simpa using hres, hfp⟩

/-- Claim C7: a successful `save_analysis` for a track with an existing
ledger entry flips exactly that entry to `resolved = true` (refreshing
its timestamp) while keeping `retry_count` at its last-failure value;
the entry is never deleted, and the track no longer appears in
`list_failed_tracks` at any limit. -/
theorem c7_success_resolves_entry (st : DBState) (r : TrackAnalysisResult)
    (e : FailureRow) (he : failureFor st r.track_id = some e) :
    failureFor (save_analysis st r) r.track_id
      = some ⟨e.trackId, e.filePath, e.error, e.retryCount, st.now, true⟩
    ∧ (save_analysis st r).failures.length = st.failures.length
    ∧ (∀ n, ∀ x ∈ list_failed_tracks (save_analysis st r) n,
        x.track_id ≠ r.track_id) := by
  refine ⟨?_, ?_, ?_⟩
  · unfold failureFor
    rw [save_analysis_failures]
    exact find?_update r.track_id (resolveUpdate st.now) (fun f => rfl)
      st.failures e he
  · rw [save_analysis_failures]
    exact List.length_map _ _
  · intro n x hx hcontra
    obtain ⟨f, hf, htid, hres, -⟩ :=
      mem_list_failed_tracks (save_analysis st r) n x hx
    rw [save_analysis_failures] at hf
    obtain ⟨g, -, hgf⟩ := List.mem_map.mp hf
    cases hg : (g.trackId == r.track_id) with
    | true =>
      rw [if_pos hg] at hgf
      subst hgf
      cases hres
    | false =>
      rw [if_neg (by simp [hg])] at hgf
      subst hgf
      rw [htid, hcontra] at hg
      simp at hg

/-- Witness for C7: the unresolved retry-2 entry of `dbC7` is resolved
with its counter intact and drops out of the retry queue. -/
theorem c7_success_resolves_entry_witness :
    failureFor dbC7 "t1" = some ⟨"t1", some "/p", "boom", 2, 7, false⟩
    ∧ failureFor (save_analysis dbC7 resC7) "t1"
        = some ⟨"t1", some "/p", "boom", 2, 10, true⟩
    ∧ list_failed_tracks (save_analysis dbC7 resC7) 50 = [] := by
  exact ⟨rfl,
    (c7_success_resolves_entry dbC7 resC7
      ⟨"t1", some "/p", "boom", 2, 7, false⟩ rfl).1, rfl⟩

/-- Under the one-row-per-track invariant, equal track ids identify
equal ledger rows. -/
theorem pairwise_trackId_unique :
    ∀ (l : List FailureRow),
      l.Pairwise (fun a b => a.trackId ≠ b.trackId) →
      ∀ f ∈ l, ∀ g ∈ l, f.trackId = g.trackId → f = g := by
  intro l
  induction l with
  | nil => intro _ f hf; cases hf
  | cons x xs ih =>
    intro hp f hf g hg heq
    rw [List.pairwise_cons] at hp
    rcases List.mem_cons.mp hf with rfl | hf'
    · rcases List.mem_cons.mp hg with rfl | hg'
      · rfl
      · exact absurd heq (hp.1 g hg')
    · rcases List.mem_cons.mp hg with rfl | hg'
      · exact absurd heq.symm (hp.1 f hf')
      · exact ih hp.2 f hf' g hg' heq

/-- Claim C9: a ledger entry whose stored path is null or empty is
omitted from `list_failed_tracks` even while unresolved, at every
limit — in particular at the limit `retry_failures` resolves — so such
a track never enters a retry work set. -/
theorem c9_pathless_failure_never_retried (st : DBState) (e : FailureRow)
    (he : e ∈ st.failures)
    (hpath : e.filePath = none ∨ e.filePath = some "")
    (hu : st.failures.Pairwise (fun a b => a.trackId ≠ b.trackId)) :
    (∀ n, ∀ x ∈ list_failed_tracks st n, x.track_id ≠ e.trackId)
    ∧ (∀ (limit : Option Nat) (bs : Nat),
        ∀ x ∈ list_failed_tracks st (resolveLimit limit bs),
          x.track_id ≠ e.trackId) := by
  have main : ∀ n, ∀ x ∈ list_failed_tracks st n, x.track_id ≠ e.trackId := by
    intro n x hx hcontra
    obtain ⟨f, hf, htid, -, hfp⟩ := mem_list_failed_tracks st n x hx
    have hfe : f = e :=
      pairwise_trackId_unique st.failures hu f hf e he (htid.trans hcontra)
    subst hfe
    rcases hpath with h | h <;> rw [h] at hfp <;> simp [pathNonEmpty] at hfp
  exact ⟨main, fun limit bs => main _⟩

/-- Witness for C9: the path-less unresolved entry of `dbC9` is absent
from the retry queue while the path-bearing one is returned. -/
theorem c9_pathless_failure_never_retried_witness :
    list_failed_tracks dbC9 50 = [⟨"t2", "/b"⟩]
    ∧ (⟨"t2", "/b"⟩ : TrackForAnalysis).track_id ≠ "t1" := by
  refine ⟨rfl, ?_⟩
  have h := c9_pathless_failure_never_retried dbC9
    ⟨"t1", none, "boom", 0, 5, false⟩ (by decide) (Or.inl rfl) (by decide)
  exact h.1 50 ⟨"t2", "/b"⟩ (by decide)

end NineLayer
